import Mathlib

/-!
Verification development for `zhaquirks/xbee/xbee_io.py`.

The file embeds the three core operations of the XBee IO quirk:

* `IOSample.deserialize` — parsing of an XBee IO sample report buffer
  (bytes are modelled as `List Nat`, each element a byte value; Python
  slices `data[a:b]` are modelled by `pySlice`, which like Python is
  total and clips to the buffer, and `int.from_bytes(-, 'big')` by
  `fromBytesBE`, which like Python returns 0 on an empty slice);
* `XBeeOnOff.command` — translation of an on/off command into a remote
  pin-configuration command, or fallback to the generic on/off path;
* `DigitalIOCluster.handle_cluster_general_request` — propagation of a
  decoded sample onto per-pin endpoints via `ENDPOINT_MAP`;
* `DigitalIOCluster.deserialize` — routing of inbound ZCL frames, in
  particular the re-routing of unknown cluster-specific command ids
  into the io-sample decoder.

External collaborators (zigpy's `foundation.COMMANDS` table, the
generic `OnOff.command` implementation, `remote_at` transport) are not
part of the repository source; they are represented by explicit result
constructors (`ZclPayload.raw`, `CommandResult.fallback`,
`HandleResult.delegated`) marking where control leaves the embedded code.
-/

/-- `DIO_PIN_HIGH` constant from the source. -/
def DIO_PIN_HIGH : Nat := 0x05

/-- `DIO_PIN_LOW` constant from the source. -/
def DIO_PIN_LOW : Nat := 0x04

/-- `ON_OFF_CMD` constant from the source. -/
def ON_OFF_CMD : Nat := 0x0000

/-- zigpy `foundation.Status.SUCCESS` (external constant; its ZCL value is 0). -/
def STATUS_SUCCESS : Nat := 0

/-- Python slice `data[a:b]` on a byte list (total; clips to the list). -/
def pySlice (l : List Nat) (a b : Nat) : List Nat :=
  (l.drop a).take (b - a)

/-- Python `int.from_bytes(l, byteorder='big')`; returns 0 on the empty list. -/
def fromBytesBE (l : List Nat) : Nat :=
  l.foldl (fun acc byte => acc * 256 + byte) 0

/-- The record returned by `IOSample.deserialize` (the Python dict with keys
`digital_pins`, `analog_pins`, `digital_samples`, `analog_samples`). -/
structure IOSampleT where
  digital_pins : List Nat
  analog_pins : List Nat
  digital_samples : List Nat
  analog_samples : List Nat
deriving Repr, DecidableEq

/-- The list comprehension
`[(int.from_bytes(mask, 'big') >> bit) & 1 for bit in range(count - 1, -1, -1)]`:
bit values of `n` enumerated from bit `count - 1` down to bit 0. -/
def bitsDesc (n count : Nat) : List Nat :=
  (List.range count).reverse.map (fun bit => (n >>> bit) &&& 1)

/-- The analog-sample loop of `IOSample.deserialize`: `sample_index` starts at
0; for each enabled analog pin the code appends
`int.from_bytes(data[5+sample_index:7+sample_index], 'big')` and then advances
`sample_index` by 1 (sic: by one, not by two, exactly as in the source), while
a disabled pin appends 0 without advancing. -/
def analogSamplesLoop (data : List Nat) : List Nat → Nat → List Nat
  | [], _ => []
  | apin :: rest, si =>
    if apin = 1 then
      fromBytesBE (pySlice data (5 + si) (7 + si)) :: analogSamplesLoop data rest (si + 1)
    else
      0 :: analogSamplesLoop data rest si

/-- `IOSample.deserialize` from the source: slices the digital mask
(`data[0:2]`), analog mask (`data[2:3]`) and digital sample word
(`data[3:5]`), expands each into a bit list enumerated from the top bit down
and then reversed (`list(reversed(...))`), and walks the analog-enable list
consuming sample words. The Python function always returns the dict (and
leftover `b''`); no length validation is performed anywhere. -/
def IOSample.deserialize (data : List Nat) : IOSampleT :=
  let digital_mask := pySlice data 0 2
  let analog_mask := pySlice data 2 3
  let digital_sample := pySlice data 3 5
  let digital_pins := (bitsDesc (fromBytesBE digital_mask) 13).reverse
  let analog_pins := (bitsDesc (fromBytesBE analog_mask) 8).reverse
  let digital_samples := (bitsDesc (fromBytesBE digital_sample) 13).reverse
  let analog_samples := analogSamplesLoop data analog_pins 0
  ⟨digital_pins, analog_pins, digital_samples, analog_samples⟩

/-- `ENDPOINT_MAP` from the source: digital pin index to endpoint id.
Pins 6, 7, 8 and 9 have no entry. -/
def ENDPOINT_MAP (pin : Nat) : Option Nat :=
  if pin = 0 then some 0xd0
  else if pin = 1 then some 0xd1
  else if pin = 2 then some 0xd2
  else if pin = 3 then some 0xd3
  else if pin = 4 then some 0xd4
  else if pin = 5 then some 0xd5
  else if pin = 10 then some 0xda
  else if pin = 11 then some 0xdb
  else if pin = 12 then some 0xdc
  else none

/-- `[i for i, x in enumerate(pins) if x == 1]`, with the running index made
explicit. -/
def activePinsAux : Nat → List Nat → List Nat
  | _, [] => []
  | i, x :: rest =>
    if x = 1 then i :: activePinsAux (i + 1) rest
    else activePinsAux (i + 1) rest

/-- `active_pins = [i for i, x in enumerate(values['digital_pins']) if x == 1]`. -/
def activePins (pins : List Nat) : List Nat :=
  activePinsAux 0 pins

/-- Python runtime errors the propagation loop can raise: `ENDPOINT_MAP[pin]`
raises `KeyError` for a pin with no entry, and `values['digital_samples'][pin]`
would raise `IndexError` past the end of the list. -/
inductive PyErr where
  | keyError
  | indexError
deriving Repr, DecidableEq

/-- The `for pin in active_pins` loop of `handle_cluster_general_request`:
each iteration looks up `ENDPOINT_MAP[pin]` (raising `KeyError` when absent)
and pushes `(endpoint_id, digital_samples[pin])` via `_update_attribute`.
The result records the updates emitted before any error, paired with the
error (if any) that stopped the loop. -/
def emitUpdates (samples : List Nat) : List Nat → List (Nat × Nat) × Option PyErr
  | [] => ([], none)
  | pin :: rest =>
    match ENDPOINT_MAP pin with
    | none => ([], some PyErr.keyError)
    | some ep =>
      match samples.get? pin with
      | none => ([], some PyErr.indexError)
      | some v =>
        let tail := emitUpdates samples rest
        ((ep, v) :: tail.1, tail.2)

/-- Result of `handle_cluster_general_request`: either the pin updates the
loop performed (with the Python error that interrupted it, if any), or
delegation to `super().handle_cluster_general_request` for any other
command id. -/
inductive HandleResult where
  | updates (ups : List (Nat × Nat)) (err : Option PyErr)
  | delegated
deriving Repr, DecidableEq

/-- `DigitalIOCluster.handle_cluster_general_request` from the source: for
`command_id == ON_OFF_CMD` it extracts the sample record (which always carries
the `digital_pins` and `digital_samples` keys, so the `in values` guard is
always satisfied for a deserialized sample), computes the enabled pin indices
and runs the update loop; any other command id is handed to the superclass. -/
def DigitalIOCluster.handle_cluster_general_request
    (commandId : Nat) (values : IOSampleT) : HandleResult :=
  if commandId = ON_OFF_CMD then
    let r := emitUpdates values.digital_samples (activePins values.digital_pins)
    HandleResult.updates r.1 r.2
  else
    HandleResult.delegated

/-- `XBeeOnOff.ep_id_2_pin` from the source: endpoint id to native pin name. -/
def XBeeOnOff.ep_id_2_pin (ep : Nat) : Option String :=
  if ep = 0xd0 then some "D0"
  else if ep = 0xd1 then some "D1"
  else if ep = 0xd2 then some "D2"
  else if ep = 0xd3 then some "D3"
  else if ep = 0xd4 then some "D4"
  else if ep = 0xd5 then some "D5"
  else if ep = 0xda then some "P0"
  else if ep = 0xdb then some "P1"
  else if ep = 0xdc then some "P2"
  else none

/-- Result of `XBeeOnOff.command`: either delegation of the unmodified command
to the generic `super().command` path (no pin command is constructed), or a
remote `remote_at(pin_name, pin_cmd)` pin write followed immediately by the
synchronous return value `(0, foundation.Status.SUCCESS)`. -/
inductive CommandResult where
  | fallback (command : Nat)
  | pinWrite (pinName : String) (pinCmd : Nat) (status : Nat × Nat)
deriving Repr, DecidableEq

/-- `XBeeOnOff.command` from the source:
`if command not in [0, 1] or pin_name is None: return super().command(...)`;
otherwise `DIO_PIN_LOW` for 0, `DIO_PIN_HIGH` for 1, dispatched through
`remote_at` and returning `(0, Status.SUCCESS)` without waiting for the
device. -/
def XBeeOnOff.command (endpointId : Nat) (command : Nat) : CommandResult :=
  let pin_name := XBeeOnOff.ep_id_2_pin endpointId
  if ¬(command = 0 ∨ command = 1) ∨ pin_name = none then
    CommandResult.fallback command
  else if command = 0 then
    CommandResult.pinWrite (pin_name.getD "") DIO_PIN_LOW (0, STATUS_SUCCESS)
  else
    CommandResult.pinWrite (pin_name.getD "") DIO_PIN_HIGH (0, STATUS_SUCCESS)

/-- Payload produced by `DigitalIOCluster.deserialize`: a decoded io-sample
value, or raw bytes (the frames the embedded code hands onward to zigpy's
foundation machinery, which is external to this repository). -/
inductive ZclPayload where
  | sample (s : IOSampleT)
  | raw (data : List Nat)
deriving Repr, DecidableEq

/-- The tuple returned by `DigitalIOCluster.deserialize`. -/
structure DeserializeOut where
  tsn : Nat
  commandId : Nat
  isReply : Bool
  payload : ZclPayload
deriving Repr, DecidableEq

/-- `DigitalIOCluster.deserialize` from the source, for cluster frames
(`frame_type == 1`). Both `client_commands` and `server_commands` hold the
single entry `0x0000: ('io_sample', (IOSample,), False)`, so the schema lookup
succeeds exactly for command id 0 (yielding `is_reply = False` and the
`IOSample` schema) on either side of the `is_reply` branch.

* Known command id 0: the payload is decoded by `IOSample.deserialize` and
  the returned command id is `command_id + 256` (the source's "bad hack to
  differentiate foundation vs cluster").
* Any other cluster command id (`KeyError`): the source prepends
  `struct.pack('>i', tsn)[-1:]` (the low byte of `tsn`) and the low byte of
  `command_id` to the data, retries with `new_command_id = ON_OFF_CMD` —
  which is always present — and returns the decoded sample under command
  id 0 without the +256 offset. (The `command_id + 256` raw-data return in
  the source is reachable only if the io-sample entry were missing, which it
  never is.)
* Non-cluster frames (`frame_type != 1`) are dispatched against zigpy's
  external `foundation.COMMANDS` table; that path is outside the repository
  source and is represented here as the raw payload. -/
def DigitalIOCluster.deserialize (tsn : Nat) (frameType : Nat) (isReply : Bool)
    (commandId : Nat) (data : List Nat) : DeserializeOut :=
  if frameType = 1 then
    if commandId = ON_OFF_CMD then
      { tsn := tsn, commandId := commandId + 256, isReply := false,
        payload := ZclPayload.sample (IOSample.deserialize data) }
    else
      { tsn := tsn, commandId := ON_OFF_CMD, isReply := false,
        payload := ZclPayload.sample
          (IOSample.deserialize ((tsn % 256) :: (commandId % 256) :: data)) }
  else
    { tsn := tsn, commandId := commandId, isReply := isReply,
      payload := ZclPayload.raw data }

/-! ### Helper lemmas about the decoder -/

/-- Enumerating the bits of `n` from the top down and then reversing yields the
bits from bit 0 upward: the two reversals in the source cancel. -/
theorem bitsDesc_reverse (n count : Nat) :
    (bitsDesc n count).reverse = (List.range count).map (fun i => (n >>> i) &&& 1) := by
  simp [bitsDesc, List.map_reverse]

theorem deserialize_digital_pins (data : List Nat) :
    (IOSample.deserialize data).digital_pins =
      (List.range 13).map (fun i => (fromBytesBE (pySlice data 0 2) >>> i) &&& 1) := by
  simp [IOSample.deserialize, bitsDesc_reverse]

theorem deserialize_analog_pins (data : List Nat) :
    (IOSample.deserialize data).analog_pins =
      (List.range 8).map (fun i => (fromBytesBE (pySlice data 2 3) >>> i) &&& 1) := by
  simp [IOSample.deserialize, bitsDesc_reverse]

theorem deserialize_digital_samples (data : List Nat) :
    (IOSample.deserialize data).digital_samples =
      (List.range 13).map (fun i => (fromBytesBE (pySlice data 3 5) >>> i) &&& 1) := by
  simp [IOSample.deserialize, bitsDesc_reverse]

theorem analogSamplesLoop_length (data : List Nat) (pins : List Nat) (si : Nat) :
    (analogSamplesLoop data pins si).length = pins.length := by
  induction pins generalizing si with
  | nil => rfl
  | cons apin rest ih =>
    by_cases h : apin = 1 <;> simp [analogSamplesLoop, h, ih]

theorem deserialize_digital_pins_length (data : List Nat) :
    (IOSample.deserialize data).digital_pins.length = 13 := by
  simp [deserialize_digital_pins]

theorem deserialize_analog_pins_length (data : List Nat) :
    (IOSample.deserialize data).analog_pins.length = 8 := by
  simp [deserialize_analog_pins]

theorem deserialize_digital_samples_length (data : List Nat) :
    (IOSample.deserialize data).digital_samples.length = 13 := by
  simp [deserialize_digital_samples]

theorem deserialize_analog_samples_length (data : List Nat) :
    (IOSample.deserialize data).analog_samples.length = 8 := by
  simp only [IOSample.deserialize]
  rw [analogSamplesLoop_length]
  simp [bitsDesc]

/-- A disabled entry of the analog-enable list contributes a literal 0 at its
position of the analog-sample list, wherever the cursor stands. -/
theorem analogSamplesLoop_get_of_ne_one (data : List Nat) (pins : List Nat)
    (si i : Nat) (v : Nat) (hv : pins.get? i = some v) (hne : v ≠ 1) :
    (analogSamplesLoop data pins si).get? i = some 0 := by
  induction pins generalizing si i with
  | nil => simp at hv
  | cons apin rest ih =>
    cases i with
    | zero =>
      simp only [List.get?] at hv
      obtain rfl : apin = v := by injection hv
      simp [analogSamplesLoop, hne]
    | succ j =>
      simp only [List.get?] at hv
      by_cases h : apin = 1
      · simpa [analogSamplesLoop, h] using ih (si + 1) j hv
      · simpa [analogSamplesLoop, h] using ih si j hv

/-! ### Helper lemmas about the propagator -/

/-- Every index produced by the enumeration loop is below the running index
plus the list length. -/
theorem mem_activePinsAux_lt (pins : List Nat) (n i : Nat)
    (h : i ∈ activePinsAux n pins) : i < n + pins.length := by
  induction pins generalizing n with
  | nil => simp [activePinsAux] at h
  | cons x rest ih =>
    by_cases hx : x = 1
    · simp only [activePinsAux, hx, if_pos, List.mem_cons] at h
      rcases h with rfl | h
      · simp
      · have := ih (n + 1) h
        simp only [List.length_cons]
        omega
    · simp only [activePinsAux, hx, if_neg, not_false_iff] at h
      have := ih (n + 1) h
      simp only [List.length_cons]
      omega

theorem mem_activePins_lt (pins : List Nat) (i : Nat)
    (h : i ∈ activePins pins) : i < pins.length := by
  have := mem_activePinsAux_lt pins 0 i h
  omega

/-- When every listed pin has an `ENDPOINT_MAP` entry and indexes into the
sample list, the update loop completes without error and produces exactly one
update per pin, in list order. -/
theorem emitUpdates_eq_map (samples : List Nat) (l : List Nat)
    (h : ∀ i ∈ l, (ENDPOINT_MAP i).isSome = true ∧ i < samples.length) :
    emitUpdates samples l =
      (l.map (fun i => ((ENDPOINT_MAP i).getD 0, samples.getD i 0)), none) := by
  induction l with
  | nil => rfl
  | cons pin rest ih =>
    obtain ⟨hsome, hlt⟩ := h pin (List.mem_cons_self pin rest)
    obtain ⟨ep, hep⟩ : ∃ ep, ENDPOINT_MAP pin = some ep :=
      Option.isSome_iff_exists.mp hsome
    obtain ⟨v, hv⟩ : ∃ v, samples.get? pin = some v := ⟨_, List.get?_eq_get hlt⟩
    have hrest := ih (fun i hi => h i (List.mem_cons_of_mem pin hi))
    have hv' : samples[pin]? = some v := by
      rw [← List.get?_eq_getElem?]; exact hv
    have hgetD : samples.getD pin 0 = v := by
      simp [List.getD_eq_getElem?_getD, hv']
    simp [emitUpdates, hep, hv, hv', hrest, hgetD]

/-! ### Claim theorems -/

/-- C1 (code bug): the source's own docstring says "Analog Sample, 2 bytes
per", and each read takes a 2-byte slice, but the cursor `sample_index`
advances by only 1 per enabled analog pin, so consecutive enabled pins read
overlapping bytes. On the buffer `[00 00 03 00 00 12 34 56 78]` (analog pins
0 and 1 enabled) the code decodes pin 1 from bytes `[6:8]` (`0x3456`) instead
of the non-overlapping word at bytes `[7:9]` (`0x5678`) that a 2-byte-per-pin
layout prescribes. -/
theorem xbee_analog_cursor_bug_eval :
    (IOSample.deserialize
        [0x00, 0x00, 0x03, 0x00, 0x00, 0x12, 0x34, 0x56, 0x78]).analog_samples =
      [0x1234, 0x3456, 0, 0, 0, 0, 0, 0] ∧
    fromBytesBE (pySlice [0x00, 0x00, 0x03, 0x00, 0x00, 0x12, 0x34, 0x56, 0x78] 7 9) =
      0x5678 :=
  ⟨rfl, rfl⟩

/-- C2 (counterexample): the empty buffer is shorter than the 5-byte header,
yet `IOSample.deserialize` does not fail — it returns a complete all-zero
sample record. The source performs no length validation at all. -/
theorem xbee_decode_empty_buffer_succeeds :
    IOSample.deserialize [] =
      ⟨List.replicate 13 0, List.replicate 8 0, List.replicate 13 0,
        List.replicate 8 0⟩ ∧
    ([] : List Nat).length < 5 :=
  ⟨rfl, by decide⟩

/-- Sample words read entirely past the end of the buffer decode to 0, for
any analog-enable list and any cursor position. -/
theorem analogSamplesLoop_of_short (data : List Nat) (h : data.length ≤ 5)
    (pins : List Nat) (si : Nat) :
    analogSamplesLoop data pins si = List.replicate pins.length 0 := by
  induction pins generalizing si with
  | nil => rfl
  | cons apin rest ih =>
    have hslice : pySlice data (5 + si) (7 + si) = [] := by
      simp [pySlice, List.drop_eq_nil_of_le (le_trans h (Nat.le_add_right 5 si))]
    by_cases ha : apin = 1
    · simp [analogSamplesLoop, ha, hslice, fromBytesBE, ih, List.replicate_succ]
    · simp [analogSamplesLoop, ha, ih, List.replicate_succ]

/-- C2 (amended): decoding never fails and is never partial in the sense of
returning a truncated record: for every buffer — in particular any buffer of
at most 5 bytes, which is too short for even one analog word — the decoder
still returns all four fixed-length sequences, with every analog sample read
past the end of the buffer decoded as 0. -/
theorem xbee_decode_short_buffer_total (data : List Nat) (h : data.length ≤ 5) :
    (IOSample.deserialize data).analog_samples = List.replicate 8 0 ∧
    (IOSample.deserialize data).digital_pins.length = 13 ∧
    (IOSample.deserialize data).analog_pins.length = 8 ∧
    (IOSample.deserialize data).digital_samples.length = 13 ∧
    (IOSample.deserialize data).analog_samples.length = 8 := by
  refine ⟨?_, deserialize_digital_pins_length data, deserialize_analog_pins_length data,
    deserialize_digital_samples_length data, deserialize_analog_samples_length data⟩
  have hz := analogSamplesLoop_of_short data h
    ((bitsDesc (fromBytesBE (pySlice data 2 3)) 8).reverse) 0
  simpa [IOSample.deserialize, bitsDesc] using hz

/-- C2 witness at the empty buffer. -/
theorem xbee_decode_short_buffer_total_witness :
    (IOSample.deserialize []).analog_samples = List.replicate 8 0 ∧
    (IOSample.deserialize []).digital_pins.length = 13 ∧
    (IOSample.deserialize []).analog_pins.length = 8 ∧
    (IOSample.deserialize []).digital_samples.length = 13 ∧
    (IOSample.deserialize []).analog_samples.length = 8 :=
  xbee_decode_short_buffer_total [] (by decide)

/-- C4 (counterexample): on the buffer with digital-enable mask `0x0001`,
decoded `digital_pins[0]` is not the mask's bit 12 (it is the mask's bit 0):
the MSB-first bit enumeration and the subsequent `list(reversed(...))` cancel
each other, so no bit-order reversal relative to pin index takes place. -/
theorem xbee_digital_bit_order_not_reversed :
    (IOSample.deserialize [0, 1, 0, 0, 0]).digital_pins.get? 0 ≠
      some ((fromBytesBE (pySlice [0, 1, 0, 0, 0] 0 2) >>> 12) &&& 1) := by
  decide

/-- C4 (amended): the decoder maps wire bit `i` of the 16-bit digital-enable
mask to pin index `i` (so pin 0 reads the least significant bit), and the same
convention applies to the digital-sample word. -/
theorem xbee_digital_bit_i_maps_to_pin_i (data : List Nat) (i : Nat) (h : i < 13) :
    (IOSample.deserialize data).digital_pins.get? i =
      some ((fromBytesBE (pySlice data 0 2) >>> i) &&& 1) ∧
    (IOSample.deserialize data).digital_samples.get? i =
      some ((fromBytesBE (pySlice data 3 5) >>> i) &&& 1) := by
  constructor
  · rw [deserialize_digital_pins, List.get?_map, List.get?_range h]
    rfl
  · rw [deserialize_digital_samples, List.get?_map, List.get?_range h]
    rfl

/-- C4 witness at mask `0x0001`, pin 0. -/
theorem xbee_digital_bit_i_maps_to_pin_i_witness :
    (IOSample.deserialize [0, 1, 0, 0, 0]).digital_pins.get? 0 =
      some ((fromBytesBE (pySlice [0, 1, 0, 0, 0] 0 2) >>> 0) &&& 1) ∧
    (IOSample.deserialize [0, 1, 0, 0, 0]).digital_samples.get? 0 =
      some ((fromBytesBE (pySlice [0, 1, 0, 0, 0] 3 5) >>> 0) &&& 1) :=
  xbee_digital_bit_i_maps_to_pin_i [0, 1, 0, 0, 0] 0 (by decide)

/-- C5 (confirmed): a buffer whose digital-enable mask is `0x0001` decodes to
`digital_pins[0] = 1` and all twelve remaining entries 0, whatever the rest of
the buffer holds. -/
theorem xbee_mask_one_enables_pin_zero (rest : List Nat) :
    (IOSample.deserialize (0 :: 1 :: rest)).digital_pins =
      1 :: List.replicate 12 0 := by
  have h : pySlice (0 :: 1 :: rest) 0 2 = [0, 1] := rfl
  rw [deserialize_digital_pins, h]
  rfl

/-- C3 (counterexample): a sample with only digital pin 6 enabled (mask
`0x0040`) is not silently skipped by the propagator — `ENDPOINT_MAP[6]` has no
entry and the raw dict indexing raises `KeyError`, aborting the loop with zero
updates emitted. -/
theorem xbee_propagate_unmapped_pin_raises_key_error :
    DigitalIOCluster.handle_cluster_general_request 0
        (IOSample.deserialize [0x00, 0x40, 0x00, 0x00, 0x40]) =
      HandleResult.updates [] (some PyErr.keyError) := by
  rfl

/-- C3 (amended): when every enabled pin of a decoded sample has an
`ENDPOINT_MAP` entry, the propagator emits exactly one `(endpoint_id, value)`
update per enabled pin, pairing the pin's endpoint with its sampled value, in
ascending pin-index order, and no error occurs; an enabled pin without an
entry instead raises `KeyError` (see the counterexample). -/
theorem xbee_propagate_mapped_pins (data : List Nat)
    (h : ∀ i ∈ activePins (IOSample.deserialize data).digital_pins,
      (ENDPOINT_MAP i).isSome = true) :
    DigitalIOCluster.handle_cluster_general_request 0 (IOSample.deserialize data) =
      HandleResult.updates
        ((activePins (IOSample.deserialize data).digital_pins).map
          (fun i => ((ENDPOINT_MAP i).getD 0,
            (IOSample.deserialize data).digital_samples.getD i 0))) none := by
  have hslen : (IOSample.deserialize data).digital_samples.length = 13 :=
    deserialize_digital_samples_length data
  have hplen : (IOSample.deserialize data).digital_pins.length = 13 :=
    deserialize_digital_pins_length data
  have hall : ∀ i ∈ activePins (IOSample.deserialize data).digital_pins,
      (ENDPOINT_MAP i).isSome = true ∧
        i < (IOSample.deserialize data).digital_samples.length := by
    intro i hi
    have hb := mem_activePins_lt _ i hi
    exact ⟨h i hi, by omega⟩
  have he := emitUpdates_eq_map (IOSample.deserialize data).digital_samples
    (activePins (IOSample.deserialize data).digital_pins) hall
  simp [DigitalIOCluster.handle_cluster_general_request, ON_OFF_CMD, he]

/-- C3 witness: a sample with only pin 0 enabled and sampled high yields the
single update pairing endpoint `0xd0` with value 1. -/
theorem xbee_propagate_mapped_pins_witness :
    DigitalIOCluster.handle_cluster_general_request 0
        (IOSample.deserialize [0, 1, 0, 0, 1]) =
      HandleResult.updates
        ((activePins (IOSample.deserialize [0, 1, 0, 0, 1]).digital_pins).map
          (fun i => ((ENDPOINT_MAP i).getD 0,
            (IOSample.deserialize [0, 1, 0, 0, 1]).digital_samples.getD i 0))) none :=
  xbee_propagate_mapped_pins [0, 1, 0, 0, 1] (by decide)

/-- C6 (confirmed): for an endpoint id absent from `ep_id_2_pin` and a desired
value in {0, 1}, `XBeeOnOff.command` does not produce a pin command: it
returns the distinguished fallback outcome (delegation of the unmodified
command to the generic on/off behavior — the spec's
`UnsupportedEndpoint`/passthrough error kind), never a `pinWrite`. -/
theorem xbee_command_unknown_endpoint_falls_back (ep cmd : Nat) (pn : String)
    (pc : Nat) (s : Nat × Nat) (h : XBeeOnOff.ep_id_2_pin ep = none)
    (hc : cmd = 0 ∨ cmd = 1) :
    XBeeOnOff.command ep cmd = CommandResult.fallback cmd ∧
    XBeeOnOff.command ep cmd ≠ CommandResult.pinWrite pn pc s := by
  have hmain : XBeeOnOff.command ep cmd = CommandResult.fallback cmd := by
    simp [XBeeOnOff.command, h]
  refine ⟨hmain, ?_⟩
  rw [hmain]
  intro hcon
  exact CommandResult.noConfusion hcon

/-- C6 witness at endpoint `0x9999`, value 1. -/
theorem xbee_command_unknown_endpoint_falls_back_witness :
    XBeeOnOff.command 0x9999 1 = CommandResult.fallback 1 ∧
    XBeeOnOff.command 0x9999 1 ≠
      CommandResult.pinWrite "D0" DIO_PIN_HIGH (0, STATUS_SUCCESS) :=
  xbee_command_unknown_endpoint_falls_back 0x9999 1 "D0" DIO_PIN_HIGH
    (0, STATUS_SUCCESS) (by decide) (Or.inr rfl)

/-- C7 (counterexample): an inbound cluster frame with command id 5 (not the
io-sample command 0) is not rejected as an unknown command: the receive path
prepends the tsn byte and command-id byte to the payload and decodes the
result as io-sample data, returning it under the io-sample command id 0. -/
theorem xbee_unknown_cluster_command_decoded_as_sample :
    (DigitalIOCluster.deserialize 18 1 false 5 [1, 2]).payload =
      ZclPayload.sample (IOSample.deserialize [18, 5, 1, 2]) ∧
    (DigitalIOCluster.deserialize 18 1 false 5 [1, 2]).commandId = 0 :=
  ⟨rfl, rfl⟩

/-- C7 (amended): every cluster-frame command id other than the io-sample
command is re-routed into the io-sample decoder — the low byte of the tsn and
the low byte of the command id are prepended to the payload, which is then
deserialized as an `IOSample` and returned under command id 0. (The distinct
`command_id + 256` raw return in the source is unreachable because the
io-sample entry is always present in the command tables.) -/
theorem xbee_unknown_cluster_command_rerouted (tsn : Nat) (isReply : Bool)
    (cid : Nat) (data : List Nat) (h : cid ≠ 0) :
    DigitalIOCluster.deserialize tsn 1 isReply cid data =
      ⟨tsn, 0, false,
        ZclPayload.sample
          (IOSample.deserialize ((tsn % 256) :: (cid % 256) :: data))⟩ := by
  simp [DigitalIOCluster.deserialize, ON_OFF_CMD, h]

/-- C7 witness at tsn 18, command id 5. -/
theorem xbee_unknown_cluster_command_rerouted_witness :
    DigitalIOCluster.deserialize 18 1 false 5 [1, 2] =
      ⟨18, 0, false, ZclPayload.sample (IOSample.deserialize [18, 5, 1, 2])⟩ :=
  xbee_unknown_cluster_command_rerouted 18 false 5 [1, 2] (by decide)

/-- C8 (confirmed): for every buffer at least as long as the 5-byte header
plus two bytes per enabled analog bit, the decoded sequences have fixed
lengths 13, 13, 8 and 8, and every analog index whose enable bit is 0 carries
the synthesized value 0. -/
theorem xbee_decode_fixed_shape (data : List Nat) (i : Nat)
    (h : 5 + 2 * ((IOSample.deserialize data).analog_pins.count 1) ≤ data.length)
    (hi : i < 8)
    (hz : (IOSample.deserialize data).analog_pins.getD i 0 = 0) :
    (IOSample.deserialize data).digital_pins.length = 13 ∧
    (IOSample.deserialize data).digital_samples.length = 13 ∧
    (IOSample.deserialize data).analog_pins.length = 8 ∧
    (IOSample.deserialize data).analog_samples.length = 8 ∧
    (IOSample.deserialize data).analog_samples.getD i 0 = 0 := by
  refine ⟨deserialize_digital_pins_length data, deserialize_digital_samples_length data,
    deserialize_analog_pins_length data, deserialize_analog_samples_length data, ?_⟩
  have hlen : (IOSample.deserialize data).analog_pins.length = 8 :=
    deserialize_analog_pins_length data
  have hvlt : i < (IOSample.deserialize data).analog_pins.length := by omega
  obtain ⟨v, hv⟩ : ∃ v, (IOSample.deserialize data).analog_pins.get? i = some v :=
    ⟨_, List.get?_eq_get hvlt⟩
  have hv' : (IOSample.deserialize data).analog_pins[i]? = some v := by
    rw [← List.get?_eq_getElem?]; exact hv
  have hv0 : v = 0 := by
    rw [List.getD_eq_getElem?_getD, hv'] at hz
    simpa using hz
  have e1 : (IOSample.deserialize data).analog_pins =
      (bitsDesc (fromBytesBE (pySlice data 2 3)) 8).reverse := rfl
  have e2 : (IOSample.deserialize data).analog_samples =
      analogSamplesLoop data ((bitsDesc (fromBytesBE (pySlice data 2 3)) 8).reverse) 0 :=
    rfl
  have hs := analogSamplesLoop_get_of_ne_one data
    ((bitsDesc (fromBytesBE (pySlice data 2 3)) 8).reverse) 0 i v
    (by rw [← e1]; exact hv) (by omega)
  rw [e2, List.getD_eq_getElem?_getD, ← List.get?_eq_getElem?, hs]
  rfl

/-- C8 witness at the minimal 5-byte buffer, analog index 0. -/
theorem xbee_decode_fixed_shape_witness :
    (IOSample.deserialize [0, 0, 0, 0, 0]).digital_pins.length = 13 ∧
    (IOSample.deserialize [0, 0, 0, 0, 0]).digital_samples.length = 13 ∧
    (IOSample.deserialize [0, 0, 0, 0, 0]).analog_pins.length = 8 ∧
    (IOSample.deserialize [0, 0, 0, 0, 0]).analog_samples.length = 8 ∧
    (IOSample.deserialize [0, 0, 0, 0, 0]).analog_samples.getD 0 0 = 0 :=
  xbee_decode_fixed_shape [0, 0, 0, 0, 0] 0 (by decide) (by decide) (by decide)

/-- C9 (confirmed): for every endpoint id present in `ep_id_2_pin`,
`XBeeOnOff.command` with value 1 produces a pin command carrying the mapped
native pin name and the set-pin-high opcode `DIO_PIN_HIGH`, and with value 0
the set-pin-low opcode `DIO_PIN_LOW`, in both cases returning the synchronous
success status `(0, Status.SUCCESS)`. -/
theorem xbee_command_known_endpoint_pin_write (ep : Nat) (pn : String)
    (h : XBeeOnOff.ep_id_2_pin ep = some pn) :
    XBeeOnOff.command ep 1 =
      CommandResult.pinWrite pn DIO_PIN_HIGH (0, STATUS_SUCCESS) ∧
    XBeeOnOff.command ep 0 =
      CommandResult.pinWrite pn DIO_PIN_LOW (0, STATUS_SUCCESS) := by
  constructor <;> simp [XBeeOnOff.command, h]

/-- C9 witness: endpoint `0xd0` maps to pin "D0". -/
theorem xbee_command_known_endpoint_pin_write_witness :
    XBeeOnOff.command 0xd0 1 =
      CommandResult.pinWrite "D0" DIO_PIN_HIGH (0, STATUS_SUCCESS) ∧
    XBeeOnOff.command 0xd0 0 =
      CommandResult.pinWrite "D0" DIO_PIN_LOW (0, STATUS_SUCCESS) :=
  xbee_command_known_endpoint_pin_write 0xd0 "D0" (by decide)

/-- C10 (confirmed): `IOSample.deserialize` is total — the Python function
contains no raise and all its slices clip to the buffer — and on every input,
including the empty buffer and buffers missing header or analog bytes, it
returns the four sequences with their fixed lengths 13, 8, 13 and 8. -/
theorem xbee_deserialize_total_fixed_lengths (data : List Nat) :
    (IOSample.deserialize data).digital_pins.length = 13 ∧
    (IOSample.deserialize data).analog_pins.length = 8 ∧
    (IOSample.deserialize data).digital_samples.length = 13 ∧
    (IOSample.deserialize data).analog_samples.length = 8 :=
  ⟨deserialize_digital_pins_length data, deserialize_analog_pins_length data,
    deserialize_digital_samples_length data, deserialize_analog_samples_length data⟩
